import Mathlib

/-!
# basic_input: the input-mapping core of `src/basic_input.cpp`

A shallow embedding of namespace `input` (range_converter, context, mappedinput, mapper)
followed by theorems about it.

Modelling conventions
* `float` inputs are exact rationals (`ℚ`). `converter.convert` computes with exact
  operations; its result is an `fval`: a finite value, or `nonfinite` (NaN or an infinity),
  which is what a float division by zero evaluates to.
* `converter.convert32` is the same conversion with every operation rounded as IEEE 754
  binary32 does (`f32`, `round32`: to nearest, ties to even, overflow to an infinity); the
  numerical bounds on converted values are stated on it.
* `std::map<K, V>` is a function `K → Option V`; `operator[]=` is a pointwise update and
  `at` throwing is `none`.
* `std::set<T>` is a `Finset T`.
* `bool f(code, T& out)` is a function to `Option T`.
* `std::list<context*>`: every pointer is `&contexts.at(name)` for a registered name and
  the registry never erases, so the list is a list of names, dereferenced through the
  registry when it is walked.
-/

namespace input

/-! ## Symbols -/

inductive action
  | ACTION_ONE | ACTION_TWO | ACTION_THREE | ACTION_FOUR | ACTION_FIVE
  | ACTION_SIX | ACTION_SEVEN | ACTION_EIGHT | ACTION_NINE | ACTION_TEN
  deriving DecidableEq, Repr

inductive state
  | STATE_ONE
  deriving DecidableEq, Repr

inductive range
  | RANGE_ONE | RANGE_TWO
  deriving DecidableEq, Repr

/-! ## Floats -/

/-- The value of a float expression: finite, or non-finite (NaN, or an infinity). -/
inductive fval
  | finite (q : ℚ)
  | nonfinite
  deriving DecidableEq, Repr

/-- Float division `a / b` of two finite values: a zero divisor gives NaN (`0/0`) or an
infinity, both non-finite. -/
def fdiv (a b : ℚ) : fval :=
  if b = 0 then fval.nonfinite else fval.finite (a / b)

structure vec2 where
  x : ℚ
  y : ℚ
  deriving DecidableEq, Repr

/-- Modelled from the spec: `clamp` comes from framework.h, which is not among the sources;
"clamps `value` into `input_domain`". -/
def clamp (v lo hi : ℚ) : ℚ := min (max v lo) hi

/-- Modelled from the spec: `mix` comes from framework.h, which is not among the sources;
"linearly interpolates `out.lo + t * (out.hi - out.lo)`". -/
def mix (a b t : ℚ) : ℚ := a + t * (b - a)

/-! ## range_converter -/

/-- The struct `range_converter::converter`; field `in_` is the source's `in`. -/
structure converter where
  in_ : vec2
  out : vec2
  deriving DecidableEq, Repr

/-- The source's `converter::convert`:
`cval = clamp(inval, in.x, in.y); factor = (cval - in.x) / (in.y - in.x);
return mix(out.x, out.y, factor)`. A non-finite factor makes the result non-finite. The
operations are exact here; `converter.convert32` rounds each of them to binary32. -/
def converter.convert (c : converter) (inval : ℚ) : fval :=
  let cval := clamp inval c.in_.x c.in_.y
  match fdiv (cval - c.in_.x) (c.in_.y - c.in_.x) with
  | fval.finite factor => fval.finite (mix c.out.x c.out.y factor)
  | fval.nonfinite => fval.nonfinite

structure range_converter where
  conversionmap : range → Option converter

/-- A default-constructed `range_converter`: an empty map. -/
def range_converter.empty : range_converter := ⟨fun _ => none⟩

/-- The source's `range_converter::add_converter`. -/
def range_converter.add_converter (rc : range_converter) (r : range) (i o : vec2) :
    range_converter :=
  if i.y < i.x ∨ o.y < o.x then rc
  else ⟨fun q => if q = r then some ⟨i, o⟩ else rc.conversionmap q⟩

/-- The source's `range_converter::convert`: `conversionmap.at(r)` throwing is caught and
gives `inval` back. -/
def range_converter.convert (rc : range_converter) (r : range) (inval : ℚ) : fval :=
  match rc.conversionmap r with
  | some it => it.convert inval
  | none => fval.finite inval

/-! ## binary32 -/

/-- A binary32 (`float`) value: a finite number, an infinity (`neg` is its sign bit) or NaN.
The sign of a zero is not modelled. -/
inductive f32
  | fin (q : ℚ)
  | inf (neg : Bool)
  | nan
  deriving DecidableEq, Repr

/-- Rounding of a non-negative number to an integer, to nearest, ties to even. -/
def round_half_even (x : ℚ) : Nat :=
  let n : Nat := ⌊x⌋₊
  let f : ℚ := x - n
  if f < 1 / 2 then n
  else if 1 / 2 < f then n + 1
  else if n % 2 = 0 then n else n + 1

/-- IEEE 754 rounding of a real result to binary32, to nearest, ties to even: the unit in
the last place is `2 ^ (e - 23)` with `e` the binary exponent of the magnitude, not below
-126 (subnormal numbers); a rounded magnitude of `2 ^ 128` or more is an infinity. -/
def round32 (q : ℚ) : f32 :=
  if q = 0 then f32.fin 0
  else
    let a : ℚ := |q|
    let e : Int := max (Int.log 2 a) (-126)
    let u : ℚ := 2 ^ (e - 23)
    let r : ℚ := (round_half_even (a / u) : ℚ) * u
    if 2 ^ 128 ≤ r then f32.inf (decide (q < 0))
    else f32.fin (if q < 0 then -r else r)

/-- A number that binary32 rounding leaves as it is: a binary32 value. -/
def exact32 (q : ℚ) : Prop := round32 q = f32.fin q

/-- The binary32 subtraction `x - y`. -/
def f32.sub : f32 → f32 → f32
  | f32.fin a, f32.fin b => round32 (a - b)
  | f32.fin _, f32.inf t => f32.inf (!t)
  | f32.fin _, f32.nan => f32.nan
  | f32.inf s, f32.fin _ => f32.inf s
  | f32.inf s, f32.inf t => if s = t then f32.nan else f32.inf s
  | f32.inf _, f32.nan => f32.nan
  | f32.nan, _ => f32.nan

/-- The binary32 addition `x + y`. -/
def f32.add : f32 → f32 → f32
  | f32.fin a, f32.fin b => round32 (a + b)
  | f32.fin _, f32.inf t => f32.inf t
  | f32.fin _, f32.nan => f32.nan
  | f32.inf s, f32.fin _ => f32.inf s
  | f32.inf s, f32.inf t => if s = t then f32.inf s else f32.nan
  | f32.inf _, f32.nan => f32.nan
  | f32.nan, _ => f32.nan

/-- The binary32 multiplication `x * y`. -/
def f32.mul : f32 → f32 → f32
  | f32.fin a, f32.fin b => round32 (a * b)
  | f32.fin a, f32.inf t => if a = 0 then f32.nan else f32.inf (xor (decide (a < 0)) t)
  | f32.fin _, f32.nan => f32.nan
  | f32.inf s, f32.fin b => if b = 0 then f32.nan else f32.inf (xor s (decide (b < 0)))
  | f32.inf s, f32.inf t => f32.inf (xor s t)
  | f32.inf _, f32.nan => f32.nan
  | f32.nan, _ => f32.nan

/-- The binary32 division `x / y`; a zero divisor counts as `+0`. -/
def f32.div : f32 → f32 → f32
  | f32.fin a, f32.fin b =>
    if b = 0 then (if a = 0 then f32.nan else f32.inf (decide (a < 0)))
    else round32 (a / b)
  | f32.fin _, f32.inf _ => f32.fin 0
  | f32.fin _, f32.nan => f32.nan
  | f32.inf s, f32.fin b => f32.inf (xor s (decide (b < 0)))
  | f32.inf _, f32.inf _ => f32.nan
  | f32.inf _, f32.nan => f32.nan
  | f32.nan, _ => f32.nan

/-- Modelled from the spec: `mix` comes from framework.h, which is not among the sources;
"linearly interpolates `out.lo + t * (out.hi - out.lo)`", here with binary32 operations. -/
def mix32 (a b t : f32) : f32 := f32.add a (f32.mul t (f32.sub b a))

/-- The source's `converter::convert` for `t = float`, every operation in binary32:
`cval = clamp(inval, in.x, in.y); factor = (cval - in.x) / (in.y - in.x);
return mix(out.x, out.y, factor)`. Clamping picks one of its arguments and does not round. -/
def converter.convert32 (c : converter) (inval : ℚ) : f32 :=
  let cval := clamp inval c.in_.x c.in_.y
  let factor := f32.div (f32.sub (f32.fin cval) (f32.fin c.in_.x))
    (f32.sub (f32.fin c.in_.y) (f32.fin c.in_.x))
  mix32 (f32.fin c.out.x) (f32.fin c.out.y) factor

/-- The source's `range_converter::convert` for `t = float`, in binary32. -/
def range_converter.convert32 (rc : range_converter) (r : range) (inval : ℚ) : f32 :=
  match rc.conversionmap r with
  | some it => it.convert32 inval
  | none => f32.fin inval

/-! ## context -/

structure context where
  actionmap : Nat → Option action
  statemap : Nat → Option state
  rangemap : Nat → Option range
  sensitivitymap : range → Option ℚ
  conversion : range_converter

/-- A default-constructed `context`: empty maps and an empty converter. -/
def context.empty : context :=
  ⟨fun _ => none, fun _ => none, fun _ => none, fun _ => none, range_converter.empty⟩

/-- The source's `context::add(unsigned, action)`. -/
def context.add_action (c : context) (code : Nat) (a : action) : context :=
  { c with actionmap := fun k => if k = code then some a else c.actionmap k }

/-- The source's `context::add(unsigned, state)`. -/
def context.add_state (c : context) (code : Nat) (a : state) : context :=
  { c with statemap := fun k => if k = code then some a else c.statemap k }

/-- The source's `context::add(unsigned, range)`. -/
def context.add_range (c : context) (code : Nat) (a : range) : context :=
  { c with rangemap := fun k => if k = code then some a else c.rangemap k }

/-- The source's `context::add_sensitivity`. -/
def context.add_sensitivity (c : context) (code : range) (a : ℚ) : context :=
  { c with sensitivitymap := fun k => if k = code then some a else c.sensitivitymap k }

/-- The source's `context::set_converter`. -/
def context.set_converter (c : context) (r : range_converter) : context :=
  { c with conversion := r }

/-- The source's `context::map(unsigned, action&)`: `some a` is `true` with `out = a`. -/
def context.map_action (c : context) (code : Nat) : Option action := c.actionmap code

/-- The source's `context::map(unsigned, state&)`. -/
def context.map_state (c : context) (code : Nat) : Option state := c.statemap code

/-- The source's `context::map(unsigned, range&)`. -/
def context.map_range (c : context) (code : Nat) : Option range := c.rangemap code

/-- The source's `context::get_sensitivity`: the registered value, or `1.0f`. -/
def context.get_sensitivity (c : context) (r : range) : ℚ :=
  match c.sensitivitymap r with
  | some val => val
  | none => 1

/-- The source's `context::get_conversions`. -/
def context.get_conversions (c : context) : range_converter := c.conversion

/-! ## mappedinput -/

structure mappedinput where
  actions : Finset action
  states : Finset state
  ranges : range → Option fval

/-- A default-constructed `mappedinput`. -/
def mappedinput.empty : mappedinput := ⟨∅, ∅, fun _ => none⟩

/-- The source's `mappedinput::consume(action)`. -/
def mappedinput.consume_action (d : mappedinput) (a : action) : mappedinput :=
  { d with actions := d.actions.erase a }

/-- The source's `mappedinput::consume(state)`. -/
def mappedinput.consume_state (d : mappedinput) (s : state) : mappedinput :=
  { d with states := d.states.erase s }

/-- The source's `mappedinput::consume(range)`: erase the entry when `find` finds one. -/
def mappedinput.consume_range (d : mappedinput) (r : range) : mappedinput :=
  if (d.ranges r).isSome then { d with ranges := fun q => if q = r then none else d.ranges q }
  else d

/-! ## mapper -/

/-- A callback object: it receives the dispatch copy by reference and may modify it. -/
abbrev callback := mappedinput → mappedinput

structure mapper where
  contexts : String → Option context
  active_contexts : List String
  callbacks : List (Nat × callback)
  current_mappedinput : mappedinput

/-- A default-constructed `mapper`. -/
def mapper.empty : mapper := ⟨fun _ => none, [], [], mappedinput.empty⟩

/-- The contexts the pointers of `active_contexts` point to, front to back. -/
def mapper.active (m : mapper) : List context := m.active_contexts.filterMap m.contexts

/-- The loop of `mapper::map(unsigned, action&)` over the active contexts. -/
def map_action_loop : List context → Nat → Option action
  | [], _ => none
  | c :: rest, code =>
    match c.map_action code with
    | some a => some a
    | none => map_action_loop rest code

/-- The loop of `mapper::map(unsigned, state&)` over the active contexts. -/
def map_state_loop : List context → Nat → Option state
  | [], _ => none
  | c :: rest, code =>
    match c.map_state code with
    | some s => some s
    | none => map_state_loop rest code

/-- The source's `mapper::map(unsigned, action&)`. -/
def mapper.map_action (m : mapper) (code : Nat) : Option action :=
  map_action_loop m.active code

/-- The source's `mapper::map(unsigned, state&)`. -/
def mapper.map_state (m : mapper) (code : Nat) : Option state :=
  map_state_loop m.active code

/-- The source's `mapper::map_and_consume`. -/
def mapper.map_and_consume (m : mapper) (code : Nat) : mapper :=
  let m1 : mapper :=
    match m.map_action code with
    | some a => { m with current_mappedinput := m.current_mappedinput.consume_action a }
    | none => m
  match m1.map_state code with
  | some s => { m1 with current_mappedinput := m1.current_mappedinput.consume_state s }
  | none => m1

/-- The source's `mapper::add_context`. -/
def mapper.add_context (m : mapper) (name : String) (c : context) : mapper :=
  { m with contexts := fun n => if n = name then some c else m.contexts n }

/-- The source's `mapper::add_button_event`. -/
def mapper.add_button_event (m : mapper) (button : Nat) (pressed prev_down : Bool) : mapper :=
  match (if pressed && !prev_down then m.map_action button else none) with
  | some a =>
    { m with current_mappedinput :=
        { m.current_mappedinput with actions := insert a m.current_mappedinput.actions } }
  | none =>
    match (if pressed then m.map_state button else none) with
    | some s =>
      { m with current_mappedinput :=
          { m.current_mappedinput with states := insert s m.current_mappedinput.states } }
    | none => m.map_and_consume button

/-- The loop of `mapper::add_axis_event` over the active contexts, on the accumulator. -/
def add_axis_loop : List context → Nat → ℚ → mappedinput → mappedinput
  | [], _, _, d => d
  | c :: rest, axis, val, d =>
    match c.map_range axis with
    | some r =>
      { d with ranges := fun q =>
          if q = r then some (c.get_conversions.convert r (val * c.get_sensitivity r))
          else d.ranges q }
    | none => add_axis_loop rest axis val d

/-- The source's `mapper::add_axis_event`. -/
def mapper.add_axis_event (m : mapper) (axis : Nat) (val : ℚ) : mapper :=
  { m with current_mappedinput := add_axis_loop m.active axis val m.current_mappedinput }

/-- Insertion into the `std::multimap` of callbacks: after every entry whose priority is
not greater (equal keys keep their insertion order). -/
def multimap_insert (priority : Nat) (cb : callback) : List (Nat × callback) → List (Nat × callback)
  | [] => [(priority, cb)]
  | e :: rest =>
    if priority < e.1 then (priority, cb) :: e :: rest
    else e :: multimap_insert priority cb rest

/-- The source's `mapper::add_callback`. -/
def mapper.add_callback (m : mapper) (priority : Nat) (cb : callback) : mapper :=
  { m with callbacks := multimap_insert priority cb m.callbacks }

/-- The loop of `mapper::dispatch_callbacks` on the local copy `input`: the copy as each
callback receives it, in call order, and the copy after the last callback. -/
def dispatch_loop : List (Nat × callback) → mappedinput → List mappedinput × mappedinput
  | [], input => ([], input)
  | e :: rest, input =>
    let r := dispatch_loop rest (e.2 input)
    (input :: r.1, r.2)

/-- The source's `mapper::dispatch_callbacks` (a `const` method working on a copy of the
accumulator): the mapper afterwards, and what each callback was handed. -/
def mapper.dispatch_callbacks (m : mapper) : mapper × List mappedinput :=
  (m, (dispatch_loop m.callbacks m.current_mappedinput).1)

/-- The source's `mapper::push_context`: `contexts.at(name)` throwing is caught. -/
def mapper.push_context (m : mapper) (name : String) : mapper :=
  match m.contexts name with
  | some _ => { m with active_contexts := name :: m.active_contexts }
  | none => m

/-- The source's `mapper::pop_context`. -/
def mapper.pop_context (m : mapper) : mapper :=
  match m.active_contexts with
  | [] => m
  | _ :: rest => { m with active_contexts := rest }

/-- The source's `mapper::clear`. -/
def mapper.clear (m : mapper) : mapper :=
  { m with current_mappedinput :=
      { m.current_mappedinput with actions := ∅, ranges := fun _ => none } }

/-! ## Specification vocabulary -/

/-- "The first context in the active stack (front to back) whose map contains the code":
`x` is what the first context of `l` that `sel` binds is bound to. -/
def FirstMatch {α : Type} (l : List context) (sel : context → Option α) (x : α) : Prop :=
  ∃ pre c post, l = pre ++ c :: post ∧ (∀ d ∈ pre, sel d = none) ∧ sel c = some x

/-- No context of `l` is bound by `sel`. -/
def NoMatch {α : Type} (l : List context) (sel : context → Option α) : Prop :=
  ∀ d ∈ l, sel d = none

/-- One operation of the host on a mapper. -/
inductive op
  | button (code : Nat) (pressed prev_down : Bool)
  | axis (code : Nat) (val : ℚ)
  | push (name : String)
  | pop
  | clear

/-- The effect of one operation. -/
def mapper.step (m : mapper) : op → mapper
  | op.button code pressed prev_down => m.add_button_event code pressed prev_down
  | op.axis code val => m.add_axis_event code val
  | op.push name => m.push_context name
  | op.pop => m.pop_context
  | op.clear => m.clear

/-- The effect of a sequence of operations, in order. -/
def mapper.run (m : mapper) (ops : List op) : mapper := ops.foldl mapper.step m

/-- An operation that leaves the context stack alone: neither a push nor a pop. -/
def op.keeps_stack : op → Bool
  | op.push _ => false
  | op.pop => false
  | _ => true

/-! ## Example configurations -/

/-- A context binding code 2 to STATE_ONE and nothing else. -/
def state_only_context : context := context.empty.add_state 2 state.STATE_ONE

/-- A mapper with `state_only_context` registered as "c1" and pushed. -/
def state_only_mapper : mapper :=
  (mapper.empty.add_context "c1" state_only_context).push_context "c1"

/-- A context binding code 1 to ACTION_ONE and to STATE_ONE, and axis 10 to RANGE_ONE with
sensitivity 2 and converter `[0,100] → [0,1]`. -/
def upper_context : context :=
  ((((context.empty.add_action 1 action.ACTION_ONE).add_state 1 state.STATE_ONE).add_range 10
    range.RANGE_ONE).add_sensitivity range.RANGE_ONE 2).set_converter
    (range_converter.empty.add_converter range.RANGE_ONE ⟨0, 100⟩ ⟨0, 1⟩)

/-- A context binding code 1 to ACTION_FIVE and axis 10 to RANGE_TWO. -/
def lower_context : context :=
  (context.empty.add_action 1 action.ACTION_FIVE).add_range 10 range.RANGE_TWO

/-- A mapper with "lower" pushed first and "upper" pushed on top of it. -/
def layered_mapper : mapper :=
  (((mapper.empty.add_context "upper" upper_context).add_context "lower"
    lower_context).push_context "lower").push_context "upper"

/-- A mapper with `state_only_context` registered as "c1" and an empty stack. -/
def registered_mapper : mapper := mapper.empty.add_context "c1" state_only_context

/-- The `layered_mapper` after a rising edge and then a held event on code 1: the
accumulator holds ACTION_ONE and STATE_ONE. -/
def pressed_mapper : mapper :=
  (layered_mapper.add_button_event 1 true false).add_button_event 1 true true

/-- A mapper with `lower_context` (code 1 bound to ACTION_FIVE, no State binding) registered
as "lower" and pushed. -/
def action_only_mapper : mapper :=
  (mapper.empty.add_context "lower" lower_context).push_context "lower"

/-- A mapper with "upper" and "lower" registered and nothing pushed. -/
def two_context_mapper : mapper :=
  (mapper.empty.add_context "upper" upper_context).add_context "lower" lower_context

/-- Registering callbacks one after the other, in list order, with `add_callback`. -/
def mapper.register_all (m : mapper) (regs : List (Nat × callback)) : mapper :=
  regs.foldl (fun acc e => acc.add_callback e.1 e.2) m

/-- A callback that consumes ACTION_ONE, as the priority-0 callback of `main` does. -/
def consume_one : callback := fun d => d.consume_action action.ACTION_ONE

/-- A callback that only looks at its input. -/
def observe : callback := fun d => d

/-- The `pressed_mapper` with `observe` registered at priority 1, then `consume_one` at
priority 0, then `observe` again at priority 1. -/
def dispatching_mapper : mapper :=
  pressed_mapper.register_all [(1, observe), (0, consume_one), (1, observe)]

/-- The value the source's `range_converter::add_converter` returns: it is declared `void`,
so there is a single possible value. -/
def range_converter.add_converter_returns (_rc : range_converter) (_r : range)
    (_i _o : vec2) : Unit := ()

/-- The context of the end-to-end scenario: code 1 bound to Action `J`, code 2 to State `S`,
code 10 to Range `R`, sensitivity 2 for `R`, converter `[0,100] → [0,1]` for `R`. -/
def scenario_context (J : action) (S : state) (R : range) : context :=
  ((((context.empty.add_action 1 J).add_state 2 S).add_range 10 R).add_sensitivity R
    2).set_converter (range_converter.empty.add_converter R ⟨0, 100⟩ ⟨0, 1⟩)

/-- The mapper of the end-to-end scenario: the scenario context registered as "c1" and
pushed on an empty mapper, and one callback registered. -/
def scenario_mapper (J : action) (S : state) (R : range) (priority : Nat) (cb : callback) :
    mapper :=
  ((mapper.empty.add_context "c1" (scenario_context J S R)).push_context "c1").add_callback
    priority cb

/-- The scenario after `add_button_event(1, true, false)`. -/
def scenario_pressed (J : action) (S : state) (R : range) (priority : Nat) (cb : callback) :
    mapper :=
  (scenario_mapper J S R priority cb).add_button_event 1 true false

/-- The scenario after the following `add_axis_event(10, 25)`. -/
def scenario_moved (J : action) (S : state) (R : range) (priority : Nat) (cb : callback) :
    mapper :=
  (scenario_pressed J S R priority cb).add_axis_event 10 25

/-- The scenario after the following `clear()` and `add_button_event(1, false, true)`. -/
def scenario_released (J : action) (S : state) (R : range) (priority : Nat) (cb : callback) :
    mapper :=
  (scenario_moved J S R priority cb).clear.add_button_event 1 false true

/-! ## range_converter: theorems -/

/-- A registration with ordered domains stores the entry under its range. -/
theorem add_converter_accepts (rc : range_converter) (r : range) (i o : vec2)
    (hi : i.x ≤ i.y) (ho : o.x ≤ o.y) :
    (rc.add_converter r i o).conversionmap r = some ⟨i, o⟩ := by
  have h : ¬ (i.y < i.x ∨ o.y < o.x) := by
    rintro (h | h)
    · exact absurd h (not_lt.mpr hi)
    · exact absurd h (not_lt.mpr ho)
  simp [range_converter.add_converter, h]

/-- A registration, accepted or not, leaves the entries of the other ranges alone. -/
theorem add_converter_other (rc : range_converter) (r q : range) (i o : vec2) (hq : q ≠ r) :
    (rc.add_converter r i o).conversionmap q = rc.conversionmap q := by
  unfold range_converter.add_converter
  split
  · rfl
  · simp [hq]

/-- C8: `add_converter(r, in, out)` with `in.hi < in.lo` or `out.hi < out.lo` leaves the
range_converter unchanged, so `convert(q, v)` is what it was for every range `q`
(`r` included) and every value `v`. -/
theorem C8_rejected_registration (rc : range_converter) (r : range) (i o : vec2)
    (h : i.y < i.x ∨ o.y < o.x) :
    rc.add_converter r i o = rc ∧
    ∀ (q : range) (v : ℚ), (rc.add_converter r i o).convert q v = rc.convert q v := by
  have heq : rc.add_converter r i o = rc := by
    simp [range_converter.add_converter, h]
  exact ⟨heq, fun q v => by rw [heq]⟩

/-- C8 at the spec's example `in = [10, 0]`, on a converter that already has an entry for
the range. -/
theorem C8_rejected_registration_witness :
    ((0 : ℚ) < 10 ∨ (1 : ℚ) < 0) ∧
    ((range_converter.empty.add_converter range.RANGE_ONE ⟨0, 100⟩ ⟨0, 1⟩).add_converter
        range.RANGE_ONE ⟨10, 0⟩ ⟨0, 1⟩).convert range.RANGE_ONE 50
      = (range_converter.empty.add_converter range.RANGE_ONE ⟨0, 100⟩ ⟨0, 1⟩).convert
          range.RANGE_ONE 50 :=
  ⟨Or.inl (by norm_num),
    (C8_rejected_registration
      (range_converter.empty.add_converter range.RANGE_ONE ⟨0, 100⟩ ⟨0, 1⟩)
      range.RANGE_ONE ⟨10, 0⟩ ⟨0, 1⟩ (Or.inl (by norm_num))).2 range.RANGE_ONE 50⟩

/-- C9: a zero-width input domain `[lo, lo]` passes the guard of `add_converter`, and
`convert` then divides `0` by `0`: the result is non-finite (NaN) for every value, never the
finite `olo`. -/
theorem C9_degenerate_domain_nonfinite (rc : range_converter) (r : range) (lo olo ohi v : ℚ)
    (hout : olo ≤ ohi) :
    (rc.add_converter r ⟨lo, lo⟩ ⟨olo, ohi⟩).convert r v = fval.nonfinite ∧
    (rc.add_converter r ⟨lo, lo⟩ ⟨olo, ohi⟩).convert r v ≠ fval.finite olo := by
  have hreg := add_converter_accepts rc r ⟨lo, lo⟩ ⟨olo, ohi⟩ (le_refl lo) hout
  have hres : (rc.add_converter r ⟨lo, lo⟩ ⟨olo, ohi⟩).convert r v = fval.nonfinite := by
    simp [range_converter.convert, hreg, converter.convert, fdiv]
  exact ⟨hres, by rw [hres]; exact fun h => fval.noConfusion h⟩

/-- C9 at `add_converter(RANGE_ONE, [5,5], [0,1])` and `convert(RANGE_ONE, 3)`. -/
theorem C9_degenerate_domain_nonfinite_witness :
    (0 : ℚ) ≤ 1 ∧
    (range_converter.empty.add_converter range.RANGE_ONE ⟨5, 5⟩ ⟨0, 1⟩).convert
        range.RANGE_ONE 3 = fval.nonfinite :=
  ⟨by norm_num,
    (C9_degenerate_domain_nonfinite range_converter.empty range.RANGE_ONE 5 0 1 3
      (by norm_num)).1⟩

/-- C10: for a range with no registered converter, `convert(r, v) = v`. -/
theorem C10_identity_fallback (rc : range_converter) (r : range) (v : ℚ)
    (h : rc.conversionmap r = none) :
    rc.convert r v = fval.finite v := by
  simp [range_converter.convert, h]

/-- C10 at a converter holding an entry for RANGE_ONE only, asked for RANGE_TWO. -/
theorem C10_identity_fallback_witness :
    (range_converter.empty.add_converter range.RANGE_ONE ⟨0, 100⟩ ⟨0, 1⟩).conversionmap
        range.RANGE_TWO = none ∧
    (range_converter.empty.add_converter range.RANGE_ONE ⟨0, 100⟩ ⟨0, 1⟩).convert
        range.RANGE_TWO 7 = fval.finite 7 :=
  ⟨add_converter_other range_converter.empty range.RANGE_ONE range.RANGE_TWO _ _ (by decide),
    C10_identity_fallback _ range.RANGE_TWO 7
      (add_converter_other range_converter.empty range.RANGE_ONE range.RANGE_TWO _ _
        (by decide))⟩

/-! ## mapper: lookup lemmas -/

theorem state_only_mapper_active : state_only_mapper.active = [state_only_context] := rfl

theorem layered_mapper_active : layered_mapper.active = [upper_context, lower_context] := rfl

/-- When some context of the list is bound, there is a first one. -/
theorem FirstMatch_of_exists {α : Type} (l : List context) (sel : context → Option α)
    (h : ∃ c ∈ l, sel c ≠ none) : ∃ x, FirstMatch l sel x := by
  induction l with
  | nil => obtain ⟨c, hc, _⟩ := h; cases hc
  | cons d rest ih =>
    cases hd : sel d with
    | some x => exact ⟨x, [], d, rest, rfl, by simp, hd⟩
    | none =>
      have hrest : ∃ c ∈ rest, sel c ≠ none := by
        obtain ⟨c, hc, hne⟩ := h
        rcases List.mem_cons.mp hc with rfl | hc
        · exact absurd hd hne
        · exact ⟨c, hc, hne⟩
      obtain ⟨x, pre, c, post, hl, hpre, hc⟩ := ih hrest
      refine ⟨x, d :: pre, c, post, by rw [hl]; rfl, ?_, hc⟩
      intro e he
      rcases List.mem_cons.mp he with rfl | he
      · exact hd
      · exact hpre e he

/-- The first match is unique. -/
theorem FirstMatch_unique {α : Type} (l : List context) (sel : context → Option α) (x y : α)
    (hx : FirstMatch l sel x) (hy : FirstMatch l sel y) : x = y := by
  induction l with
  | nil =>
    obtain ⟨pre, c, post, hl, _, _⟩ := hx
    cases pre <;> cases hl
  | cons d rest ih =>
    obtain ⟨pre, c, post, hl, hpre, hc⟩ := hx
    obtain ⟨pre2, c2, post2, hl2, hpre2, hc2⟩ := hy
    cases pre with
    | nil =>
      cases pre2 with
      | nil =>
        simp only [List.nil_append, List.cons.injEq] at hl hl2
        rw [← hl.1] at hc
        rw [← hl2.1] at hc2
        rw [hc] at hc2
        exact Option.some.inj hc2
      | cons e pre2 =>
        simp only [List.nil_append, List.cons_append, List.cons.injEq] at hl hl2
        have := hpre2 e (List.mem_cons_self _ _)
        rw [← hl2.1, hl.1, hc] at this
        cases this
    | cons e pre =>
      cases pre2 with
      | nil =>
        simp only [List.nil_append, List.cons_append, List.cons.injEq] at hl hl2
        have := hpre e (List.mem_cons_self _ _)
        rw [← hl.1, hl2.1, hc2] at this
        cases this
      | cons e2 pre2 =>
        simp only [List.cons_append, List.cons.injEq] at hl hl2
        exact ih ⟨pre, c, post, hl.2, fun f hf => hpre f (List.mem_cons_of_mem _ hf), hc⟩
          ⟨pre2, c2, post2, hl2.2, fun f hf => hpre2 f (List.mem_cons_of_mem _ hf), hc2⟩

/-- The action lookup loop returns the binding of the first context that has one. -/
theorem map_action_loop_first (l : List context) (code : Nat) (a : action)
    (h : FirstMatch l (fun c => c.actionmap code) a) : map_action_loop l code = some a := by
  obtain ⟨pre, c, post, rfl, hpre, hc⟩ := h
  induction pre with
  | nil => simp [map_action_loop, context.map_action, hc]
  | cons d pre ih =>
    have hd : d.actionmap code = none := hpre d (List.mem_cons_self _ _)
    simp only [List.cons_append, map_action_loop, context.map_action, hd]
    exact ih (fun e he => hpre e (List.mem_cons_of_mem _ he))

/-- The action lookup loop fails when no context binds the code. -/
theorem map_action_loop_none (l : List context) (code : Nat)
    (h : NoMatch l (fun c => c.actionmap code)) : map_action_loop l code = none := by
  induction l with
  | nil => rfl
  | cons d rest ih =>
    have hd : d.actionmap code = none := h d (List.mem_cons_self _ _)
    simp only [map_action_loop, context.map_action, hd]
    exact ih (fun e he => h e (List.mem_cons_of_mem _ he))

/-- The state lookup loop returns the binding of the first context that has one. -/
theorem map_state_loop_first (l : List context) (code : Nat) (s : state)
    (h : FirstMatch l (fun c => c.statemap code) s) : map_state_loop l code = some s := by
  obtain ⟨pre, c, post, rfl, hpre, hc⟩ := h
  induction pre with
  | nil => simp [map_state_loop, context.map_state, hc]
  | cons d pre ih =>
    have hd : d.statemap code = none := hpre d (List.mem_cons_self _ _)
    simp only [List.cons_append, map_state_loop, context.map_state, hd]
    exact ih (fun e he => hpre e (List.mem_cons_of_mem _ he))

/-- The state lookup loop fails when no context binds the code. -/
theorem map_state_loop_none (l : List context) (code : Nat)
    (h : NoMatch l (fun c => c.statemap code)) : map_state_loop l code = none := by
  induction l with
  | nil => rfl
  | cons d rest ih =>
    have hd : d.statemap code = none := h d (List.mem_cons_self _ _)
    simp only [map_state_loop, context.map_state, hd]
    exact ih (fun e he => h e (List.mem_cons_of_mem _ he))

/-! ## mapper: button events -/

/-- A rising edge on a code with an action binding takes the first branch. -/
theorem add_button_event_rising_action (m : mapper) (code : Nat) (a : action)
    (h : m.map_action code = some a) :
    m.add_button_event code true false =
      { m with current_mappedinput :=
          { m.current_mappedinput with actions := insert a m.current_mappedinput.actions } } := by
  simp [mapper.add_button_event, h]

/-- A pressed event that does not fire an action, on a code with a state binding, takes the
second branch: this holds for a held event and for a rising edge without action binding. -/
theorem add_button_event_pressed_state (m : mapper) (code : Nat) (prev_down : Bool) (s : state)
    (ha : prev_down = true ∨ m.map_action code = none) (h : m.map_state code = some s) :
    m.add_button_event code true prev_down =
      { m with current_mappedinput :=
          { m.current_mappedinput with states := insert s m.current_mappedinput.states } } := by
  rcases ha with rfl | ha
  · simp [mapper.add_button_event, h]
  · cases prev_down <;> simp [mapper.add_button_event, h, ha]

/-- A release event goes straight to the consume pass. -/
theorem add_button_event_release (m : mapper) (code : Nat) (prev_down : Bool) :
    m.add_button_event code false prev_down = m.map_and_consume code := by
  simp [mapper.add_button_event]

/-- The consume pass keeps the registry, the stack and the callbacks. -/
theorem map_and_consume_frame (m : mapper) (code : Nat) :
    (m.map_and_consume code).contexts = m.contexts ∧
    (m.map_and_consume code).active_contexts = m.active_contexts ∧
    (m.map_and_consume code).callbacks = m.callbacks := by
  unfold mapper.map_and_consume
  cases m.map_action code <;> simp only [] <;> split <;> simp

/-- The accumulator after the consume pass. -/
theorem map_and_consume_input (m : mapper) (code : Nat) :
    (m.map_and_consume code).current_mappedinput =
      { actions :=
          match m.map_action code with
          | some a => m.current_mappedinput.actions.erase a
          | none => m.current_mappedinput.actions
        states :=
          match m.map_state code with
          | some s => m.current_mappedinput.states.erase s
          | none => m.current_mappedinput.states
        ranges := m.current_mappedinput.ranges } := by
  unfold mapper.map_and_consume
  cases h1 : m.map_action code <;> cases h2 : m.map_state code <;>
    simp [mapper.map_state, mapper.active, mappedinput.consume_action,
      mappedinput.consume_state] <;>
    simp [mapper.map_state, mapper.active] at h2 <;> simp [h2]

/-- C1, as the code has it: when the active contexts bind code `K` to a State and to no
Action, a rising-edge event `add_button_event(K, true, false)` falls through to the State
branch: the Action set and the Range map are unchanged and the first-match State of `K` is
inserted into the State set. -/
theorem C1_rising_edge_state_only (m : mapper) (K : Nat)
    (hs : ∃ c ∈ m.active, c.statemap K ≠ none)
    (ha : NoMatch m.active (fun c => c.actionmap K)) :
    ∃ S, FirstMatch m.active (fun c => c.statemap K) S ∧
      (m.add_button_event K true false).current_mappedinput.actions
        = m.current_mappedinput.actions ∧
      (m.add_button_event K true false).current_mappedinput.states
        = insert S m.current_mappedinput.states ∧
      (m.add_button_event K true false).current_mappedinput.ranges
        = m.current_mappedinput.ranges := by
  obtain ⟨S, hS⟩ := FirstMatch_of_exists _ _ hs
  have h := add_button_event_pressed_state m K false S
    (Or.inr (map_action_loop_none _ _ ha)) (map_state_loop_first _ _ _ hS)
  exact ⟨S, hS, by rw [h], by rw [h], by rw [h]⟩

/-- C1 as stated fails: `state_only_mapper` binds code 2 to STATE_ONE and to no Action, its
State set is empty, and the rising-edge event for code 2 puts STATE_ONE into the State set. -/
theorem C1_counterexample :
    (∃ c ∈ state_only_mapper.active, c.statemap 2 ≠ none) ∧
    NoMatch state_only_mapper.active (fun c => c.actionmap 2) ∧
    state_only_mapper.current_mappedinput.states = ∅ ∧
    (state_only_mapper.add_button_event 2 true false).current_mappedinput.states
      = {state.STATE_ONE} ∧
    (state_only_mapper.add_button_event 2 true false).current_mappedinput.states
      ≠ state_only_mapper.current_mappedinput.states := by
  refine ⟨⟨state_only_context, by rw [state_only_mapper_active]; simp, by decide⟩, ?_, rfl, rfl,
    by decide⟩
  intro d hd
  rw [state_only_mapper_active] at hd
  rw [List.mem_singleton.mp hd]
  rfl

/-- C1 (as the code has it) at `state_only_mapper` and code 2. -/
theorem C1_rising_edge_state_only_witness :
    ∃ S, FirstMatch state_only_mapper.active (fun c => c.statemap 2) S ∧
      (state_only_mapper.add_button_event 2 true false).current_mappedinput.actions
        = state_only_mapper.current_mappedinput.actions ∧
      (state_only_mapper.add_button_event 2 true false).current_mappedinput.states
        = insert S state_only_mapper.current_mappedinput.states ∧
      (state_only_mapper.add_button_event 2 true false).current_mappedinput.ranges
        = state_only_mapper.current_mappedinput.ranges :=
  C1_rising_edge_state_only state_only_mapper 2
    ⟨state_only_context, by rw [state_only_mapper_active]; simp, by decide⟩
    (by
      intro d hd
      rw [state_only_mapper_active] at hd
      rw [List.mem_singleton.mp hd]
      rfl)

/-- C2: when some active context binds the code to an Action, the rising-edge event
`add_button_event(code, true, false)` inserts exactly the Action of the first context of the
active stack (front to back) whose action map contains the code, and leaves the State set
and the Range map unchanged, whatever State bindings the code has. -/
theorem C2_rising_edge_action (m : mapper) (code : Nat)
    (hb : ∃ c ∈ m.active, c.actionmap code ≠ none) :
    ∃ a, FirstMatch m.active (fun c => c.actionmap code) a ∧
      (m.add_button_event code true false).current_mappedinput.actions
        = insert a m.current_mappedinput.actions ∧
      (m.add_button_event code true false).current_mappedinput.states
        = m.current_mappedinput.states ∧
      (m.add_button_event code true false).current_mappedinput.ranges
        = m.current_mappedinput.ranges := by
  obtain ⟨a, ha⟩ := FirstMatch_of_exists _ _ hb
  have h := add_button_event_rising_action m code a (map_action_loop_first _ _ _ ha)
  exact ⟨a, ha, by rw [h], by rw [h], by rw [h]⟩

/-- C2 at `layered_mapper` and code 1, which the front context binds to an Action and to a
State and the context behind it to another Action. -/
theorem C2_rising_edge_action_witness :
    (∃ c ∈ layered_mapper.active, c.actionmap 1 ≠ none) ∧
    ∃ a, FirstMatch layered_mapper.active (fun c => c.actionmap 1) a ∧
      (layered_mapper.add_button_event 1 true false).current_mappedinput.actions
        = insert a layered_mapper.current_mappedinput.actions ∧
      (layered_mapper.add_button_event 1 true false).current_mappedinput.states
        = layered_mapper.current_mappedinput.states ∧
      (layered_mapper.add_button_event 1 true false).current_mappedinput.ranges
        = layered_mapper.current_mappedinput.ranges :=
  ⟨⟨upper_context, by rw [layered_mapper_active]; simp, by decide⟩,
    C2_rising_edge_action layered_mapper 1
      ⟨upper_context, by rw [layered_mapper_active]; simp, by decide⟩⟩

/-- C3: when some active context binds the code to a State, the held event
`add_button_event(code, true, true)` inserts exactly the State of the first context of the
active stack (front to back) whose state map contains the code, and leaves the Action set
and the Range map unchanged. -/
theorem C3_held_state (m : mapper) (code : Nat)
    (hb : ∃ c ∈ m.active, c.statemap code ≠ none) :
    ∃ s, FirstMatch m.active (fun c => c.statemap code) s ∧
      (m.add_button_event code true true).current_mappedinput.states
        = insert s m.current_mappedinput.states ∧
      (m.add_button_event code true true).current_mappedinput.actions
        = m.current_mappedinput.actions ∧
      (m.add_button_event code true true).current_mappedinput.ranges
        = m.current_mappedinput.ranges := by
  obtain ⟨s, hs⟩ := FirstMatch_of_exists _ _ hb
  have h := add_button_event_pressed_state m code true s (Or.inl rfl)
    (map_state_loop_first _ _ _ hs)
  exact ⟨s, hs, by rw [h], by rw [h], by rw [h]⟩

/-- C3 at `layered_mapper` and code 1. -/
theorem C3_held_state_witness :
    (∃ c ∈ layered_mapper.active, c.statemap 1 ≠ none) ∧
    ∃ s, FirstMatch layered_mapper.active (fun c => c.statemap 1) s ∧
      (layered_mapper.add_button_event 1 true true).current_mappedinput.states
        = insert s layered_mapper.current_mappedinput.states ∧
      (layered_mapper.add_button_event 1 true true).current_mappedinput.actions
        = layered_mapper.current_mappedinput.actions ∧
      (layered_mapper.add_button_event 1 true true).current_mappedinput.ranges
        = layered_mapper.current_mappedinput.ranges :=
  ⟨⟨upper_context, by rw [layered_mapper_active]; simp, by decide⟩,
    C3_held_state layered_mapper 1
      ⟨upper_context, by rw [layered_mapper_active]; simp, by decide⟩⟩

/-- C4: after a release event `add_button_event(code, false, prev_down)` the Action set is
the old one minus the first-match Action of the code (the old one when no active context
binds an Action), the State set is the old one minus the first-match State of the code (the
old one when no active context binds a State), the Range map is unchanged, and when no
active context binds the code the accumulator is unchanged. -/
theorem C4_release_consumes (m : mapper) (code : Nat) (prev_down : Bool) :
    (∀ a, FirstMatch m.active (fun c => c.actionmap code) a →
      (m.add_button_event code false prev_down).current_mappedinput.actions
        = m.current_mappedinput.actions.erase a) ∧
    (NoMatch m.active (fun c => c.actionmap code) →
      (m.add_button_event code false prev_down).current_mappedinput.actions
        = m.current_mappedinput.actions) ∧
    (∀ s, FirstMatch m.active (fun c => c.statemap code) s →
      (m.add_button_event code false prev_down).current_mappedinput.states
        = m.current_mappedinput.states.erase s) ∧
    (NoMatch m.active (fun c => c.statemap code) →
      (m.add_button_event code false prev_down).current_mappedinput.states
        = m.current_mappedinput.states) ∧
    (m.add_button_event code false prev_down).current_mappedinput.ranges
      = m.current_mappedinput.ranges ∧
    (NoMatch m.active (fun c => c.actionmap code) →
      NoMatch m.active (fun c => c.statemap code) →
      (m.add_button_event code false prev_down).current_mappedinput
        = m.current_mappedinput) := by
  rw [add_button_event_release, map_and_consume_input]
  refine ⟨fun a ha => ?_, fun ha => ?_, fun s hs => ?_, fun hs => ?_, rfl, fun ha hs => ?_⟩
  · have h : m.map_action code = some a := map_action_loop_first _ _ _ ha
    simp [h]
  · have h : m.map_action code = none := map_action_loop_none _ _ ha
    simp [h]
  · have h : m.map_state code = some s := map_state_loop_first _ _ _ hs
    simp [h]
  · have h : m.map_state code = none := map_state_loop_none _ _ hs
    simp [h]
  · have h1 : m.map_action code = none := map_action_loop_none _ _ ha
    have h2 : m.map_state code = none := map_state_loop_none _ _ hs
    simp [h1, h2]

/-- C4 at `pressed_mapper`, whose accumulator holds ACTION_ONE and STATE_ONE: the release of
code 1 takes both out. -/
theorem C4_release_consumes_witness :
    (pressed_mapper.add_button_event 1 false true).current_mappedinput.actions
      = pressed_mapper.current_mappedinput.actions.erase action.ACTION_ONE ∧
    (pressed_mapper.add_button_event 1 false true).current_mappedinput.states
      = pressed_mapper.current_mappedinput.states.erase state.STATE_ONE ∧
    action.ACTION_ONE ∈ pressed_mapper.current_mappedinput.actions ∧
    state.STATE_ONE ∈ pressed_mapper.current_mappedinput.states :=
  ⟨(C4_release_consumes pressed_mapper 1 true).1 action.ACTION_ONE
      ⟨[], upper_context, [lower_context], rfl, by simp, rfl⟩,
    (C4_release_consumes pressed_mapper 1 true).2.2.1 state.STATE_ONE
      ⟨[], upper_context, [lower_context], rfl, by simp, rfl⟩,
    by decide, by decide⟩

/-! ## mapper: axis events -/

/-- The axis loop stops at the first context that binds the axis and writes that context's
converted value under the bound range. -/
theorem add_axis_loop_first (pre post : List context) (c : context) (axis : Nat) (val : ℚ)
    (r : range) (d : mappedinput) (hpre : ∀ e ∈ pre, e.rangemap axis = none)
    (hc : c.rangemap axis = some r) :
    add_axis_loop (pre ++ c :: post) axis val d =
      { d with ranges := fun q =>
          if q = r then some (c.get_conversions.convert r (val * c.get_sensitivity r))
          else d.ranges q } := by
  induction pre with
  | nil => simp [add_axis_loop, context.map_range, hc]
  | cons e pre ih =>
    have he : e.rangemap axis = none := hpre e (List.mem_cons_self _ _)
    simp only [List.cons_append, add_axis_loop, context.map_range, he]
    exact ih (fun f hf => hpre f (List.mem_cons_of_mem _ hf))

/-- The axis loop changes nothing when no context binds the axis. -/
theorem add_axis_loop_none (l : List context) (axis : Nat) (val : ℚ) (d : mappedinput)
    (h : NoMatch l (fun c => c.rangemap axis)) : add_axis_loop l axis val d = d := by
  induction l with
  | nil => rfl
  | cons e rest ih =>
    have he : e.rangemap axis = none := h e (List.mem_cons_self _ _)
    simp only [add_axis_loop, context.map_range, he]
    exact ih (fun f hf => h f (List.mem_cons_of_mem _ hf))

/-- The registered sensitivity, or 1 when there is none. -/
theorem get_sensitivity_eq (c : context) (r : range) :
    c.get_sensitivity r = (c.sensitivitymap r).getD 1 := by
  unfold context.get_sensitivity
  cases c.sensitivitymap r <;> rfl

/-- The converter of `upper_context` sends 50 to 1/2. -/
theorem upper_context_convert_50 :
    upper_context.conversion.convert range.RANGE_ONE 50 = fval.finite (1 / 2) := by
  have hreg := add_converter_accepts range_converter.empty range.RANGE_ONE ⟨0, 100⟩ ⟨0, 1⟩
    (by norm_num) (by norm_num)
  have hc : upper_context.conversion
      = range_converter.empty.add_converter range.RANGE_ONE ⟨0, 100⟩ ⟨0, 1⟩ := rfl
  rw [hc]
  simp only [range_converter.convert, hreg, converter.convert, fdiv, mix, clamp]
  norm_num

/-- C6: if `c` is the first context of the active stack (front to back) whose range map
binds the axis, to a Range `r`, then after `add_axis_event(axis, v)` the Range map holds, for
`r`, `c`'s converter applied to `(r, v * s)`, with `s` the sensitivity `c` registers for `r`
or 1 when it registers none, whatever was there before; every other Range entry, the Action
set and the State set are unchanged, whatever contexts stand behind `c`; and if no active
context binds the axis the accumulator is unchanged. -/
theorem C6_axis_classification (m : mapper) (axis : Nat) (v : ℚ) :
    (∀ (pre post : List context) (c : context) (r : range),
      m.active = pre ++ c :: post → (∀ d ∈ pre, d.rangemap axis = none) →
      c.rangemap axis = some r →
      (m.add_axis_event axis v).current_mappedinput.ranges r
          = some (c.conversion.convert r (v * (c.sensitivitymap r).getD 1)) ∧
      (∀ q, q ≠ r → (m.add_axis_event axis v).current_mappedinput.ranges q
          = m.current_mappedinput.ranges q) ∧
      (m.add_axis_event axis v).current_mappedinput.actions = m.current_mappedinput.actions ∧
      (m.add_axis_event axis v).current_mappedinput.states = m.current_mappedinput.states) ∧
    (NoMatch m.active (fun c => c.rangemap axis) →
      (m.add_axis_event axis v).current_mappedinput = m.current_mappedinput) := by
  constructor
  · intro pre post c r hact hpre hc
    have h := add_axis_loop_first pre post c axis v r m.current_mappedinput hpre hc
    rw [← hact] at h
    have h2 : (m.add_axis_event axis v).current_mappedinput
        = add_axis_loop m.active axis v m.current_mappedinput := rfl
    rw [h2, h]
    refine ⟨?_, fun q hq => ?_, rfl, rfl⟩
    · simp [get_sensitivity_eq, context.get_conversions]
    · simp [hq]
  · intro hno
    simp only [mapper.add_axis_event]
    exact add_axis_loop_none _ _ _ _ hno

/-- C6 at `layered_mapper`: axis 10 is bound to RANGE_ONE by the front context (sensitivity
2, converter `[0,100] → [0,1]`) and to RANGE_TWO by the one behind it; the value 25 gives
RANGE_ONE the value 1/2 and no entry for RANGE_TWO. -/
theorem C6_axis_classification_witness :
    (layered_mapper.add_axis_event 10 25).current_mappedinput.ranges range.RANGE_ONE
      = some (fval.finite (1 / 2)) ∧
    (layered_mapper.add_axis_event 10 25).current_mappedinput.ranges range.RANGE_TWO = none := by
  have h := (C6_axis_classification layered_mapper 10 25).1 [] [lower_context] upper_context
    range.RANGE_ONE layered_mapper_active (by simp) rfl
  refine ⟨?_, ?_⟩
  · rw [h.1]
    have hconv : upper_context.conversion.convert range.RANGE_ONE 50 = fval.finite (1 / 2) :=
      upper_context_convert_50
    have hs : (upper_context.sensitivitymap range.RANGE_ONE).getD 1 = 2 := rfl
    rw [hs]
    norm_num
    exact hconv
  · rw [h.2.1 range.RANGE_TWO (by decide)]
    rfl

/-! ## mapper: sequences of operations -/

/-- A button event keeps the registry and the stack. -/
theorem add_button_event_frame (m : mapper) (code : Nat) (pressed prev_down : Bool) :
    (m.add_button_event code pressed prev_down).contexts = m.contexts ∧
    (m.add_button_event code pressed prev_down).active_contexts = m.active_contexts := by
  unfold mapper.add_button_event
  split
  · exact ⟨rfl, rfl⟩
  · split
    · exact ⟨rfl, rfl⟩
    · exact ⟨(map_and_consume_frame m code).1, (map_and_consume_frame m code).2.1⟩

/-- An operation other than push and pop keeps the active contexts. -/
theorem step_keeps_active (m : mapper) (o : op) (h : o.keeps_stack = true) :
    (m.step o).active = m.active := by
  cases o with
  | button code pressed prev_down =>
    have hf := add_button_event_frame m code pressed prev_down
    simp only [mapper.step, mapper.active, hf.1, hf.2]
  | axis code val => rfl
  | push name => cases h
  | pop => cases h
  | clear => rfl

/-- A sequence without push and pop keeps the active contexts. -/
theorem run_keeps_active (ops : List op) (m : mapper)
    (h : ∀ o ∈ ops, o.keeps_stack = true) : (m.run ops).active = m.active := by
  induction ops generalizing m with
  | nil => rfl
  | cons o rest ih =>
    have hrest : ∀ o2 ∈ rest, o2.keeps_stack = true :=
      fun o2 ho2 => h o2 (List.mem_cons_of_mem _ ho2)
    have hstep := step_keeps_active m o (h o (List.mem_cons_self _ _))
    have hrun : m.run (o :: rest) = (m.step o).run rest := rfl
    rw [hrun, ih (m.step o) hrest, hstep]

/-- Running a concatenation is running its parts in turn. -/
theorem run_append (m : mapper) (xs ys : List op) : m.run (xs ++ ys) = (m.run xs).run ys := by
  simp [mapper.run, List.foldl_append]

/-- A release event on a code whose first-match State is `S` leaves `S` out of the State
set. -/
theorem release_erases_state (m : mapper) (K : Nat) (S : state) (prev_down : Bool)
    (h : FirstMatch m.active (fun c => c.statemap K) S) :
    S ∉ (m.add_button_event K false prev_down).current_mappedinput.states := by
  have hmap : m.map_state K = some S := map_state_loop_first _ _ _ h
  rw [add_button_event_release, map_and_consume_input]
  simp [hmap]

/-- C5, as the code has it: in a sequence of operations where a held event for code `K`
inserted State `S` and a release event for `K` comes later, `S` is not in the State set
right after the release provided the first-match State of `K` among the active contexts is
still `S` when the release is delivered; this is so whenever no push_context and no
pop_context comes between the held event and the release. -/
theorem C5_release_retires_state (m0 : mapper) (pre mid : List op) (K : Nat) (S : state)
    (prev_down : Bool)
    (hS : FirstMatch (m0.run pre).active (fun c => c.statemap K) S) :
    S ∈ (m0.run (pre ++ [op.button K true true])).current_mappedinput.states ∧
    (FirstMatch (m0.run (pre ++ op.button K true true :: mid)).active
        (fun c => c.statemap K) S →
      S ∉ (m0.run (pre ++ op.button K true true :: mid ++
        [op.button K false prev_down])).current_mappedinput.states) ∧
    ((∀ o ∈ mid, o.keeps_stack = true) →
      S ∉ (m0.run (pre ++ op.button K true true :: mid ++
        [op.button K false prev_down])).current_mappedinput.states) := by
  have hsplit : pre ++ op.button K true true :: mid ++ [op.button K false prev_down]
      = (pre ++ op.button K true true :: mid) ++ [op.button K false prev_down] := by simp
  have hlast : ∀ m : mapper, m.run [op.button K false prev_down]
      = m.add_button_event K false prev_down := fun _ => rfl
  have hgen : FirstMatch (m0.run (pre ++ op.button K true true :: mid)).active
        (fun c => c.statemap K) S →
      S ∉ (m0.run (pre ++ op.button K true true :: mid ++
        [op.button K false prev_down])).current_mappedinput.states := by
    intro hR
    rw [hsplit, run_append, hlast]
    exact release_erases_state _ K S prev_down hR
  refine ⟨?_, hgen, fun hmid => hgen ?_⟩
  · have hheld : ∀ m : mapper, m.run [op.button K true true]
        = m.add_button_event K true true := fun _ => rfl
    rw [run_append, hheld,
      add_button_event_pressed_state _ K true S (Or.inl rfl) (map_state_loop_first _ _ _ hS)]
    simp
  · have hcons : pre ++ op.button K true true :: mid
        = pre ++ [op.button K true true] ++ mid := by simp
    rw [hcons, run_append, run_keeps_active mid _ hmid, run_append]
    have hstep : ((m0.run pre).run [op.button K true true]).active = (m0.run pre).active :=
      run_keeps_active [op.button K true true] _ (by simp [op.keeps_stack])
    rw [hstep]
    exact hS

/-- C5 (as the code has it) at `registered_mapper`: push "c1", hold code 2, clear and an
axis event, release code 2. -/
theorem C5_release_retires_state_witness :
    state.STATE_ONE ∉ (registered_mapper.run ([op.push "c1"] ++ op.button 2 true true ::
      [op.clear, op.axis 0 5] ++ [op.button 2 false true])).current_mappedinput.states :=
  (C5_release_retires_state registered_mapper [op.push "c1"] [op.clear, op.axis 0 5] 2
    state.STATE_ONE true ⟨[], state_only_context, [], rfl, by simp, rfl⟩).2.2
    (by simp [op.keeps_stack])

/-- C5 as stated fails: on `registered_mapper`, push "c1", hold code 2 (which inserts
STATE_ONE), pop the context, release code 2: STATE_ONE is still in the State set right after
the release. -/
theorem C5_counterexample :
    state.STATE_ONE ∉ (registered_mapper.run [op.push "c1"]).current_mappedinput.states ∧
    state.STATE_ONE ∈ (registered_mapper.run
      [op.push "c1", op.button 2 true true]).current_mappedinput.states ∧
    state.STATE_ONE ∈ (registered_mapper.run
      [op.push "c1", op.button 2 true true, op.pop,
        op.button 2 false true]).current_mappedinput.states := by
  refine ⟨?_, ?_, ?_⟩ <;> decide

/-! ## mapper: context stack -/

/-- Pushing a registered name puts the name at the front of the stack. -/
theorem push_context_registered (m : mapper) (name : String) (c : context)
    (h : m.contexts name = some c) :
    m.push_context name = { m with active_contexts := name :: m.active_contexts } := by
  simp [mapper.push_context, h]

/-- Pushing a name that is not registered changes nothing. -/
theorem push_context_unregistered (m : mapper) (name : String) (h : m.contexts name = none) :
    m.push_context name = m := by
  simp [mapper.push_context, h]

/-- Pushing a registered name puts its context at the front of the active contexts. -/
theorem push_context_active (m : mapper) (name : String) (c : context)
    (h : m.contexts name = some c) : (m.push_context name).active = c :: m.active := by
  rw [push_context_registered m name c h]
  simp [mapper.active, List.filterMap_cons, h]

/-- A rising edge, when the front context binds the code to an Action, inserts it. -/
theorem rising_edge_front (m : mapper) (K : Nat) (c : context) (rest : List context)
    (A : action) (hact : m.active = c :: rest) (hA : c.actionmap K = some A) :
    m.add_button_event K true false =
      { m with current_mappedinput :=
          { m.current_mappedinput with actions := insert A m.current_mappedinput.actions } } :=
  add_button_event_rising_action m K A
    (map_action_loop_first _ _ _ ⟨[], c, rest, hact, by simp, hA⟩)

/-- C11: with contexts C1 and C2 registered (as `n1`, `n2`) that bind code `K` to different
Actions `A1` and `A2`, after push_context(C2) then push_context(C1) a rising-edge event for
`K` inserts `A1` and does not insert `A2`; after a following pop_context() a rising-edge
event for `K` inserts `A2` (also when the pop comes right after the two pushes). -/
theorem C11_lifo_precedence (m : mapper) (n1 n2 : String) (c1 c2 : context) (K : Nat)
    (A1 A2 : action) (h1 : m.contexts n1 = some c1) (h2 : m.contexts n2 = some c2)
    (hA1 : c1.actionmap K = some A1) (hA2 : c2.actionmap K = some A2) (hne : A1 ≠ A2) :
    (((m.push_context n2).push_context n1).add_button_event K true
        false).current_mappedinput.actions = insert A1 m.current_mappedinput.actions ∧
    (A2 ∈ (((m.push_context n2).push_context n1).add_button_event K true
        false).current_mappedinput.actions ↔ A2 ∈ m.current_mappedinput.actions) ∧
    (((((m.push_context n2).push_context n1).add_button_event K true
        false).pop_context).add_button_event K true false).current_mappedinput.actions
      = insert A2 (insert A1 m.current_mappedinput.actions) ∧
    ((((m.push_context n2).push_context n1).pop_context).add_button_event K true
        false).current_mappedinput.actions = insert A2 m.current_mappedinput.actions := by
  have hp2 := push_context_registered m n2 c2 h2
  have h1' : (m.push_context n2).contexts n1 = some c1 := by rw [hp2]; exact h1
  have hp1 := push_context_registered (m.push_context n2) n1 c1 h1'
  have hact2 : (m.push_context n2).active = c2 :: m.active := push_context_active m n2 c2 h2
  have hact1 : ((m.push_context n2).push_context n1).active = c1 :: c2 :: m.active := by
    rw [push_context_active _ n1 c1 h1', hact2]
  have hev := rising_edge_front _ K c1 (c2 :: m.active) A1 hact1 hA1
  have hpop : ((m.push_context n2).push_context n1).pop_context = m.push_context n2 := by
    rw [hp1]
    simp [mapper.pop_context]
  have hcur : ((m.push_context n2).push_context n1).current_mappedinput
      = m.current_mappedinput := by rw [hp1, hp2]
  have hcur2 : (m.push_context n2).current_mappedinput = m.current_mappedinput := by rw [hp2]
  refine ⟨?_, ?_, ?_, ?_⟩
  · rw [hev, hcur]
  · rw [hev, hcur]
    simp only [Finset.mem_insert]
    constructor
    · rintro (h | h)
      · exact absurd h.symm hne
      · exact h
    · exact fun h => Or.inr h
  · have hpop2 : (((m.push_context n2).push_context n1).add_button_event K true
        false).pop_context =
        { m.push_context n2 with current_mappedinput :=
            { m.current_mappedinput with
                actions := insert A1 m.current_mappedinput.actions } } := by
      rw [hev, hcur, hp1]
      simp [mapper.pop_context]
    rw [hpop2]
    have hact3 : mapper.active
        { m.push_context n2 with current_mappedinput :=
            { m.current_mappedinput with
                actions := insert A1 m.current_mappedinput.actions } } = c2 :: m.active :=
      hact2
    rw [rising_edge_front _ K c2 m.active A2 hact3 hA2]
  · rw [hpop, rising_edge_front _ K c2 m.active A2 hact2 hA2, hcur2]

/-- C11 at `two_context_mapper`: "upper" binds code 1 to ACTION_ONE, "lower" to
ACTION_FIVE. -/
theorem C11_lifo_precedence_witness :
    (((two_context_mapper.push_context "lower").push_context "upper").add_button_event 1 true
        false).current_mappedinput.actions
      = insert action.ACTION_ONE two_context_mapper.current_mappedinput.actions ∧
    ((((two_context_mapper.push_context "lower").push_context "upper").pop_context
        ).add_button_event 1 true false).current_mappedinput.actions
      = insert action.ACTION_FIVE two_context_mapper.current_mappedinput.actions :=
  ⟨(C11_lifo_precedence two_context_mapper "upper" "lower" upper_context lower_context 1
      action.ACTION_ONE action.ACTION_FIVE rfl rfl rfl rfl (by decide)).1,
    (C11_lifo_precedence two_context_mapper "upper" "lower" upper_context lower_context 1
      action.ACTION_ONE action.ACTION_FIVE rfl rfl rfl rfl (by decide)).2.2.2⟩

/-- C15: push_context with a name that is not registered changes nothing; push_context with
a registered name puts that context at the front of the active stack, the rest of the stack
unchanged behind it, and changes nothing else; pop_context on an empty stack changes nothing
(the stack stays empty); pop_context on a non-empty stack removes exactly the front element
and changes nothing else. -/
theorem C15_fail_soft_stack (m : mapper) (name : String) :
    (m.contexts name = none → m.push_context name = m) ∧
    (∀ c, m.contexts name = some c →
      (m.push_context name).active_contexts = name :: m.active_contexts ∧
      (m.push_context name).active = c :: m.active ∧
      (m.push_context name).contexts = m.contexts ∧
      (m.push_context name).callbacks = m.callbacks ∧
      (m.push_context name).current_mappedinput = m.current_mappedinput) ∧
    (m.active_contexts = [] → m.pop_context = m ∧ m.pop_context.active_contexts = []) ∧
    (∀ n rest, m.active_contexts = n :: rest →
      m.pop_context.active_contexts = rest ∧
      m.pop_context.contexts = m.contexts ∧
      m.pop_context.callbacks = m.callbacks ∧
      m.pop_context.current_mappedinput = m.current_mappedinput ∧
      (∀ c, m.contexts n = some c → m.active = c :: m.pop_context.active)) := by
  refine ⟨push_context_unregistered m name, fun c hc => ?_, fun hemp => ?_, fun n rest hst => ?_⟩
  · refine ⟨?_, push_context_active m name c hc, ?_, ?_, ?_⟩ <;>
      rw [push_context_registered m name c hc]
  · have hpop : m.pop_context = m := by simp [mapper.pop_context, hemp]
    exact ⟨hpop, by rw [hpop]; exact hemp⟩
  · have hpop : m.pop_context = { m with active_contexts := rest } := by
      simp [mapper.pop_context, hst]
    refine ⟨by rw [hpop], by rw [hpop], by rw [hpop], by rw [hpop], fun c hc => ?_⟩
    rw [hpop]
    simp [mapper.active, hst, List.filterMap_cons, hc]

/-- C15 at `two_context_mapper`: an unknown name, then "lower", then a pop. -/
theorem C15_fail_soft_stack_witness :
    two_context_mapper.push_context "nowhere" = two_context_mapper ∧
    (two_context_mapper.push_context "lower").active = lower_context :: two_context_mapper.active ∧
    (two_context_mapper.push_context "lower").pop_context.active_contexts = [] :=
  ⟨(C15_fail_soft_stack two_context_mapper "nowhere").1 rfl,
    ((C15_fail_soft_stack two_context_mapper "lower").2.1 lower_context rfl).2.1,
    ((C15_fail_soft_stack (two_context_mapper.push_context "lower") "lower").2.2.2
      "lower" [] rfl).1⟩

/-! ## mapper: tick reset -/

/-- C14: clear() leaves the accumulator with an empty Action set and an empty Range map, and
leaves the State set, the registry, the active stack and the callbacks unchanged; a State
inserted by a held event is still in the State set after clear(). -/
theorem C14_tick_reset (m : mapper) :
    m.clear.current_mappedinput.actions = ∅ ∧
    (∀ r, m.clear.current_mappedinput.ranges r = none) ∧
    m.clear.current_mappedinput.states = m.current_mappedinput.states ∧
    m.clear.contexts = m.contexts ∧
    m.clear.active_contexts = m.active_contexts ∧
    m.clear.callbacks = m.callbacks ∧
    (∀ (K : Nat) (S : state), FirstMatch m.active (fun c => c.statemap K) S →
      (m.add_button_event K true true).current_mappedinput.states
        = insert S m.current_mappedinput.states ∧
      S ∈ (m.add_button_event K true true).clear.current_mappedinput.states) := by
  refine ⟨rfl, fun _ => rfl, rfl, rfl, rfl, rfl, fun K S hS => ?_⟩
  have h := add_button_event_pressed_state m K true S (Or.inl rfl)
    (map_state_loop_first _ _ _ hS)
  rw [h]
  exact ⟨rfl, by simp [mapper.clear]⟩

/-- C14 at `state_only_mapper`: STATE_ONE, set by holding code 2, outlives clear(). -/
theorem C14_tick_reset_witness :
    state.STATE_ONE ∈
      (state_only_mapper.add_button_event 2 true true).clear.current_mappedinput.states :=
  ((C14_tick_reset state_only_mapper).2.2.2.2.2.2 2 state.STATE_ONE
    ⟨[], state_only_context, [], rfl, by simp, rfl⟩).2

/-! ## mappedinput: consume -/

/-- C16: for each of the three `consume` overloads, consuming twice gives the same
mappedinput as consuming once, consuming an entry that is absent returns the mappedinput
unchanged, and consuming removes that entry and nothing else. -/
theorem C16_consume (d : mappedinput) :
    (∀ a, (d.consume_action a).consume_action a = d.consume_action a) ∧
    (∀ s, (d.consume_state s).consume_state s = d.consume_state s) ∧
    (∀ r, (d.consume_range r).consume_range r = d.consume_range r) ∧
    (∀ a, a ∉ d.actions → d.consume_action a = d) ∧
    (∀ s, s ∉ d.states → d.consume_state s = d) ∧
    (∀ r, d.ranges r = none → d.consume_range r = d) ∧
    (∀ a, a ∉ (d.consume_action a).actions ∧
      (∀ b, b ≠ a → (b ∈ (d.consume_action a).actions ↔ b ∈ d.actions)) ∧
      (d.consume_action a).states = d.states ∧ (d.consume_action a).ranges = d.ranges) ∧
    (∀ s, s ∉ (d.consume_state s).states ∧
      (∀ t, t ≠ s → (t ∈ (d.consume_state s).states ↔ t ∈ d.states)) ∧
      (d.consume_state s).actions = d.actions ∧ (d.consume_state s).ranges = d.ranges) ∧
    (∀ r, (d.consume_range r).ranges r = none ∧
      (∀ q, q ≠ r → (d.consume_range r).ranges q = d.ranges q) ∧
      (d.consume_range r).actions = d.actions ∧ (d.consume_range r).states = d.states) := by
  refine ⟨fun a => ?_, fun s => ?_, fun r => ?_, fun a ha => ?_, fun s hs => ?_,
    fun r hr => ?_, fun a => ⟨?_, fun b hb => ?_, rfl, rfl⟩,
    fun s => ⟨?_, fun t ht => ?_, rfl, rfl⟩, fun r => ?_⟩
  · simp [mappedinput.consume_action]
  · simp [mappedinput.consume_state]
  · unfold mappedinput.consume_range
    cases h : d.ranges r <;> simp [h]
  · simp [mappedinput.consume_action, Finset.erase_eq_of_not_mem ha]
  · simp [mappedinput.consume_state, Finset.erase_eq_of_not_mem hs]
  · simp [mappedinput.consume_range, hr]
  · simp [mappedinput.consume_action]
  · simp [mappedinput.consume_action, hb]
  · simp [mappedinput.consume_state]
  · show t ∈ d.states.erase s ↔ t ∈ d.states
    exact ⟨fun h => (Finset.mem_erase.mp h).2, fun h => Finset.mem_erase.mpr ⟨ht, h⟩⟩
  · unfold mappedinput.consume_range
    cases h : d.ranges r with
    | none => simp [h]
    | some x =>
      refine ⟨by simp, fun q hq => by simp [hq], by simp, by simp⟩

/-- C16 at the accumulator of `pressed_mapper`, which holds ACTION_ONE. -/
theorem C16_consume_witness :
    (pressed_mapper.current_mappedinput.consume_action action.ACTION_ONE).consume_action
        action.ACTION_ONE
      = pressed_mapper.current_mappedinput.consume_action action.ACTION_ONE ∧
    action.ACTION_ONE ∉
      (pressed_mapper.current_mappedinput.consume_action action.ACTION_ONE).actions :=
  ⟨(C16_consume pressed_mapper.current_mappedinput).1 action.ACTION_ONE,
    ((C16_consume pressed_mapper.current_mappedinput).2.2.2.2.2.2.1 action.ACTION_ONE).1⟩

/-! ## mapper: held event without a State binding -/

/-- A held event on a code that no active context binds to a State runs the consume pass. -/
theorem add_button_event_held_no_state (m : mapper) (K : Nat) (h : m.map_state K = none) :
    m.add_button_event K true true = m.map_and_consume K := by
  simp [mapper.add_button_event, h]

/-- C19: when no active context binds `K` to a State and the first-match Action of `K` is
`A`, the held event `add_button_event(K, true, true)` removes `A` from the Action set and
leaves the State set and the Range map unchanged; so after a rising-edge event for `K`
followed by a held event for `K` the accumulator, which is what dispatch copies, does not
contain `A`. -/
theorem C19_held_retracts_action (m : mapper) (K : Nat) (A : action)
    (hs : NoMatch m.active (fun c => c.statemap K))
    (ha : FirstMatch m.active (fun c => c.actionmap K) A) :
    (m.add_button_event K true true).current_mappedinput.actions
      = m.current_mappedinput.actions.erase A ∧
    (m.add_button_event K true true).current_mappedinput.states
      = m.current_mappedinput.states ∧
    (m.add_button_event K true true).current_mappedinput.ranges
      = m.current_mappedinput.ranges ∧
    A ∈ (m.add_button_event K true false).current_mappedinput.actions ∧
    A ∉ ((m.add_button_event K true false).add_button_event K true
      true).current_mappedinput.actions := by
  have hst : m.map_state K = none := map_state_loop_none _ _ hs
  have hac : m.map_action K = some A := map_action_loop_first _ _ _ ha
  have hheld : ∀ m2 : mapper, m2.map_state K = none → m2.map_action K = some A →
      (m2.add_button_event K true true).current_mappedinput =
        { actions := m2.current_mappedinput.actions.erase A
          states := m2.current_mappedinput.states
          ranges := m2.current_mappedinput.ranges } := by
    intro m2 h1 h2
    rw [add_button_event_held_no_state m2 K h1, map_and_consume_input, h1, h2]
  have hrise := add_button_event_rising_action m K A hac
  refine ⟨by rw [hheld m hst hac], by rw [hheld m hst hac], by rw [hheld m hst hac], ?_, ?_⟩
  · rw [hrise]
    simp
  · have hf := add_button_event_frame m K true false
    have hact : (m.add_button_event K true false).active = m.active := by
      simp only [mapper.active, hf.1, hf.2]
    have h1 : (m.add_button_event K true false).map_state K = none := by
      simp only [mapper.map_state, hact]; exact hst
    have h2 : (m.add_button_event K true false).map_action K = some A := by
      simp only [mapper.map_action, hact]; exact hac
    rw [hheld _ h1 h2]
    simp

/-- C19 at `action_only_mapper`, which binds code 1 to ACTION_FIVE and to no State. -/
theorem C19_held_retracts_action_witness :
    action.ACTION_FIVE ∉ ((action_only_mapper.add_button_event 1 true false).add_button_event
      1 true true).current_mappedinput.actions :=
  (C19_held_retracts_action action_only_mapper 1 action.ACTION_FIVE
    (by
      intro d hd
      have hact : action_only_mapper.active = [lower_context] := rfl
      rw [hact] at hd
      rw [List.mem_singleton.mp hd]
      rfl)
    ⟨[], lower_context, [], rfl, by simp, rfl⟩).2.2.2.2

/-! ## mapper: callbacks and dispatch -/

/-- What a multimap insertion contains: the new entry and the old ones. -/
theorem mem_multimap_insert (p : Nat) (cb : callback) (l : List (Nat × callback))
    (x : Nat × callback) : x ∈ multimap_insert p cb l ↔ x = (p, cb) ∨ x ∈ l := by
  induction l with
  | nil => simp [multimap_insert]
  | cons e rest ih =>
    unfold multimap_insert
    split
    · simp
    · simp only [List.mem_cons, ih]
      constructor
      · rintro (h | h | h)
        · exact Or.inr (Or.inl h)
        · exact Or.inl h
        · exact Or.inr (Or.inr h)
      · rintro (h | h | h)
        · exact Or.inr (Or.inl h)
        · exact Or.inl h
        · exact Or.inr (Or.inr h)

/-- A multimap insertion keeps the priorities ascending. -/
theorem multimap_insert_pairwise (p : Nat) (cb : callback) (l : List (Nat × callback))
    (h : l.Pairwise (fun x y => x.1 ≤ y.1)) :
    (multimap_insert p cb l).Pairwise (fun x y => x.1 ≤ y.1) := by
  induction l with
  | nil => simp [multimap_insert]
  | cons e rest ih =>
    have hcons := List.pairwise_cons.mp h
    unfold multimap_insert
    split
    · rename_i hlt
      refine List.pairwise_cons.mpr ⟨fun x hx => ?_, h⟩
      rcases List.mem_cons.mp hx with rfl | hx
      · exact Nat.le_of_lt hlt
      · exact Nat.le_trans (Nat.le_of_lt hlt) (hcons.1 x hx)
    · rename_i hnlt
      refine List.pairwise_cons.mpr ⟨fun x hx => ?_, ih hcons.2⟩
      rcases (mem_multimap_insert p cb rest x).mp hx with rfl | hx
      · exact Nat.le_of_not_lt hnlt
      · exact hcons.1 x hx

/-- In an ascending list a multimap insertion puts the new entry behind the entries of its
own priority and leaves the entries of every priority in their order. -/
theorem multimap_insert_filter (p : Nat) (cb : callback) (l : List (Nat × callback))
    (h : l.Pairwise (fun x y => x.1 ≤ y.1)) (q : Nat) :
    (multimap_insert p cb l).filter (fun e => decide (e.1 = q))
      = l.filter (fun e => decide (e.1 = q)) ++ (if p = q then [(p, cb)] else []) := by
  induction l with
  | nil =>
    by_cases hpq : p = q <;> simp [multimap_insert, List.filter_cons, hpq]
  | cons e rest ih =>
    have hcons := List.pairwise_cons.mp h
    unfold multimap_insert
    split
    · rename_i hlt
      by_cases hpq : p = q
      · have hnone : (e :: rest).filter (fun x => decide (x.1 = q)) = [] := by
          apply List.filter_eq_nil_iff.mpr
          intro x hx
          have hge : e.1 ≤ x.1 := by
            rcases List.mem_cons.mp hx with rfl | hx
            · exact Nat.le_refl _
            · exact hcons.1 x hx
          have : x.1 ≠ q := by omega
          simpa using this
        rw [List.filter_cons, hnone]
        simp [hpq]
      · rw [List.filter_cons]
        simp [hpq]
    · rw [List.filter_cons, List.filter_cons, ih hcons.2]
      by_cases heq : e.1 = q <;> simp [heq]

/-- Registering callbacks changes nothing but the callbacks. -/
theorem register_all_frame (regs : List (Nat × callback)) (m : mapper) :
    (m.register_all regs).current_mappedinput = m.current_mappedinput ∧
    (m.register_all regs).contexts = m.contexts ∧
    (m.register_all regs).active_contexts = m.active_contexts := by
  induction regs generalizing m with
  | nil => exact ⟨rfl, rfl, rfl⟩
  | cons e rest ih =>
    have hstep : m.register_all (e :: rest) = (m.add_callback e.1 e.2).register_all rest := rfl
    rw [hstep]
    exact ih (m.add_callback e.1 e.2)

/-- After registering `regs` on ascending callbacks, the callbacks are ascending and, for
every priority, the old entries of that priority come first, then those of `regs`, in order. -/
theorem register_all_callbacks (regs : List (Nat × callback)) (m : mapper)
    (h : m.callbacks.Pairwise (fun x y => x.1 ≤ y.1)) :
    (m.register_all regs).callbacks.Pairwise (fun x y => x.1 ≤ y.1) ∧
    ∀ q : Nat, (m.register_all regs).callbacks.filter (fun e => decide (e.1 = q))
      = m.callbacks.filter (fun e => decide (e.1 = q))
        ++ regs.filter (fun e => decide (e.1 = q)) := by
  induction regs generalizing m with
  | nil => exact ⟨h, fun q => by simp [mapper.register_all]⟩
  | cons e rest ih =>
    have hstep : m.register_all (e :: rest) = (m.add_callback e.1 e.2).register_all rest := rfl
    have hsorted : (m.add_callback e.1 e.2).callbacks.Pairwise (fun x y => x.1 ≤ y.1) :=
      multimap_insert_pairwise e.1 e.2 m.callbacks h
    have hrec := ih (m.add_callback e.1 e.2) hsorted
    rw [hstep]
    refine ⟨hrec.1, fun q => ?_⟩
    have hins : (m.add_callback e.1 e.2).callbacks.filter (fun x => decide (x.1 = q))
        = m.callbacks.filter (fun x => decide (x.1 = q))
          ++ (if e.1 = q then [(e.1, e.2)] else []) :=
      multimap_insert_filter e.1 e.2 m.callbacks h q
    rw [hrec.2 q, hins, List.filter_cons]
    obtain ⟨p, cb⟩ := e
    by_cases heq : p = q
    · subst heq
      simp
    · simp [heq]

/-- The dispatch loop hands one input to each callback. -/
theorem dispatch_loop_length (cbs : List (Nat × callback)) (d : mappedinput) :
    (dispatch_loop cbs d).1.length = cbs.length := by
  induction cbs generalizing d with
  | nil => rfl
  | cons e rest ih => simp [dispatch_loop, ih]

/-- The dispatch loop hands callback number `i` the copy as the callbacks before it left it. -/
theorem dispatch_loop_input (cbs : List (Nat × callback)) (d : mappedinput) (i : Nat)
    (hi : i < cbs.length) :
    (dispatch_loop cbs d).1[i]? = some ((cbs.take i).foldl (fun acc e => e.2 acc) d) := by
  induction cbs generalizing d i with
  | nil => cases hi
  | cons e rest ih =>
    cases i with
    | zero => simp [dispatch_loop]
    | succ j =>
      have hj : j < rest.length := Nat.lt_of_succ_lt_succ hi
      simp [dispatch_loop, ih (e.2 d) j hj]

/-- The local copy after the dispatch loop: every callback applied in turn. -/
theorem dispatch_loop_final (cbs : List (Nat × callback)) (d : mappedinput) :
    (dispatch_loop cbs d).2 = cbs.foldl (fun acc e => e.2 acc) d := by
  induction cbs generalizing d with
  | nil => rfl
  | cons e rest ih => simp [dispatch_loop, ih]

/-- C12: after registering the callbacks `regs` (in that order) on a mapper without
callbacks, dispatch_callbacks walks them in ascending priority, callbacks of equal priority
in registration order; it hands every callback one input, and callback number `i` of that
order receives the copy of the accumulator as modified by the callbacks before it; in
particular with a priority-0 callback that consumes Action `A` and a priority-1 callback,
registered in either order, the input of the priority-1 callback does not contain `A`. -/
theorem C12_dispatch_order (m0 : mapper) (regs : List (Nat × callback))
    (h0 : m0.callbacks = []) :
    (m0.register_all regs).callbacks.Pairwise (fun x y => x.1 ≤ y.1) ∧
    (∀ p : Nat, (m0.register_all regs).callbacks.filter (fun e => decide (e.1 = p))
      = regs.filter (fun e => decide (e.1 = p))) ∧
    (m0.register_all regs).dispatch_callbacks.2.length
      = (m0.register_all regs).callbacks.length ∧
    (∀ i, i < (m0.register_all regs).callbacks.length →
      (m0.register_all regs).dispatch_callbacks.2[i]?
        = some (((m0.register_all regs).callbacks.take i).foldl (fun acc e => e.2 acc)
            m0.current_mappedinput)) ∧
    (∀ (f g : callback) (A : action), (∀ d, A ∉ (f d).actions) →
      ((m0.add_callback 0 f).add_callback 1 g).dispatch_callbacks.2
        = [m0.current_mappedinput, f m0.current_mappedinput] ∧
      ((m0.add_callback 1 g).add_callback 0 f).dispatch_callbacks.2
        = [m0.current_mappedinput, f m0.current_mappedinput] ∧
      A ∉ (f m0.current_mappedinput).actions) := by
  have hsorted : m0.callbacks.Pairwise (fun x y => x.1 ≤ y.1) := by
    rw [h0]; exact List.Pairwise.nil
  have hreg := register_all_callbacks regs m0 hsorted
  have hcur := (register_all_frame regs m0).1
  refine ⟨hreg.1, fun p => ?_, ?_, fun i hi => ?_, fun f g A hA => ⟨?_, ?_, hA _⟩⟩
  · rw [hreg.2 p, h0]
    simp
  · exact dispatch_loop_length _ _
  · have h := dispatch_loop_input (m0.register_all regs).callbacks
      (m0.register_all regs).current_mappedinput i hi
    rw [hcur] at h
    show (dispatch_loop (m0.register_all regs).callbacks
      (m0.register_all regs).current_mappedinput).1[i]? = _
    rw [hcur]
    exact h
  · simp [mapper.dispatch_callbacks, mapper.add_callback, h0, multimap_insert, dispatch_loop]
  · simp [mapper.dispatch_callbacks, mapper.add_callback, h0, multimap_insert, dispatch_loop]

/-- C12 at `dispatching_mapper`: `observe` at 1, `consume_one` at 0, `observe` at 1 are
registered on `pressed_mapper`; the second callback of the dispatch order is handed the
accumulator as the first one left it. -/
theorem C12_dispatch_order_witness :
    pressed_mapper.callbacks = [] ∧
    dispatching_mapper.callbacks.Pairwise (fun x y => x.1 ≤ y.1) ∧
    dispatching_mapper.dispatch_callbacks.2[1]?
      = some ((dispatching_mapper.callbacks.take 1).foldl (fun acc e => e.2 acc)
          pressed_mapper.current_mappedinput) :=
  ⟨rfl,
    (C12_dispatch_order pressed_mapper [(1, observe), (0, consume_one), (1, observe)] rfl).1,
    (C12_dispatch_order pressed_mapper [(1, observe), (0, consume_one), (1, observe)]
      rfl).2.2.2.1 1 (by decide)⟩

/-- The order and the inputs of the dispatch at `dispatching_mapper`: `consume_one` runs
first, on an input holding ACTION_ONE; both `observe` callbacks get an input without it. -/
theorem dispatching_mapper_inputs :
    dispatching_mapper.callbacks.map Prod.fst = [0, 1, 1] ∧
    (dispatching_mapper.dispatch_callbacks.2.map
        (fun d => decide (action.ACTION_ONE ∈ d.actions))) = [true, false, false] := by
  constructor <;> decide

/-- C13: dispatch_callbacks leaves the mapper, and so its accumulator (Action set, State
set, Range map), exactly as it was; what the callbacks do shows only in the local copy,
which ends as the accumulator with every callback applied in turn. -/
theorem C13_dispatch_on_copy (m : mapper) :
    m.dispatch_callbacks.1 = m ∧
    m.dispatch_callbacks.1.current_mappedinput.actions = m.current_mappedinput.actions ∧
    m.dispatch_callbacks.1.current_mappedinput.states = m.current_mappedinput.states ∧
    m.dispatch_callbacks.1.current_mappedinput.ranges = m.current_mappedinput.ranges ∧
    (dispatch_loop m.callbacks m.current_mappedinput).2
      = m.callbacks.foldl (fun acc e => e.2 acc) m.current_mappedinput :=
  ⟨rfl, rfl, rfl, rfl, dispatch_loop_final _ _⟩

/-- C13 at `dispatching_mapper`: the local copy loses ACTION_ONE, the accumulator keeps it. -/
theorem C13_dispatch_on_copy_witness :
    action.ACTION_ONE ∉
      (dispatch_loop dispatching_mapper.callbacks
        dispatching_mapper.current_mappedinput).2.actions ∧
    action.ACTION_ONE ∈ dispatching_mapper.dispatch_callbacks.1.current_mappedinput.actions := by
  refine ⟨by decide, ?_⟩
  rw [(C13_dispatch_on_copy dispatching_mapper).2.1]
  decide

/-! ## End-to-end scenario -/

/-- The active contexts of the scenario mapper: the scenario context alone. -/
theorem scenario_mapper_active (J : action) (S : state) (R : range) (priority : Nat)
    (cb : callback) :
    (scenario_mapper J S R priority cb).active = [scenario_context J S R] := rfl

/-- The scenario converter sends `25 * 2` to `1/2`. -/
theorem scenario_convert (J : action) (S : state) (R : range) :
    (scenario_context J S R).get_conversions.convert R
      (25 * (scenario_context J S R).get_sensitivity R) = fval.finite (1 / 2) := by
  have hreg := add_converter_accepts range_converter.empty R ⟨0, 100⟩ ⟨0, 1⟩
    (by norm_num) (by norm_num)
  have hc : (scenario_context J S R).get_conversions
      = range_converter.empty.add_converter R ⟨0, 100⟩ ⟨0, 1⟩ := rfl
  have hs : (scenario_context J S R).get_sensitivity R = 2 := by
    simp [context.get_sensitivity, scenario_context, context.set_converter,
      context.add_sensitivity]
  rw [hc, hs]
  simp only [range_converter.convert, hreg, converter.convert, fdiv, mix, clamp]
  norm_num

/-- C17: in the end-to-end scenario, `add_button_event(1, true, false)` gives Actions
`{J}`; `add_axis_event(10, 25)` gives Ranges `{R: 1/2}`; dispatch_callbacks hands the
callback an input with Actions `{J}` and Ranges `{R: 1/2}`; after `clear()` and
`add_button_event(1, false, true)` the accumulator has no Action, no State and no Range. -/
theorem C17_end_to_end (J : action) (S : state) (R : range) (priority : Nat) (cb : callback) :
    (scenario_pressed J S R priority cb).current_mappedinput.actions = {J} ∧
    (scenario_moved J S R priority cb).current_mappedinput.actions = {J} ∧
    (scenario_moved J S R priority cb).current_mappedinput.states = ∅ ∧
    (∀ q, (scenario_moved J S R priority cb).current_mappedinput.ranges q
      = if q = R then some (fval.finite (1 / 2)) else none) ∧
    (scenario_moved J S R priority cb).dispatch_callbacks.2
      = [(scenario_moved J S R priority cb).current_mappedinput] ∧
    (scenario_released J S R priority cb).current_mappedinput.actions = ∅ ∧
    (scenario_released J S R priority cb).current_mappedinput.states = ∅ ∧
    (∀ q, (scenario_released J S R priority cb).current_mappedinput.ranges q = none) := by
  have hact := scenario_mapper_active J S R priority cb
  have hpress : scenario_pressed J S R priority cb =
      { scenario_mapper J S R priority cb with
          current_mappedinput := { actions := {J}, states := ∅, ranges := fun _ => none } } := by
    unfold scenario_pressed
    rw [rising_edge_front _ 1 (scenario_context J S R) [] J hact rfl]
    rfl
  have hmove : (scenario_moved J S R priority cb).current_mappedinput =
      { actions := {J}, states := ∅,
        ranges := fun q => if q = R then some (fval.finite (1 / 2)) else none } := by
    unfold scenario_moved
    have hact2 : (scenario_pressed J S R priority cb).active
        = [] ++ scenario_context J S R :: [] := by rw [hpress]; exact hact
    have hloop := add_axis_loop_first [] [] (scenario_context J S R) 10 25 R
      (scenario_pressed J S R priority cb).current_mappedinput (by simp) rfl
    simp only [mapper.add_axis_event, hact2, hloop, scenario_convert]
    rw [hpress]
  have hrel : (scenario_released J S R priority cb).current_mappedinput =
      { actions := ∅, states := ∅, ranges := fun _ => none } := by
    unfold scenario_released
    rw [add_button_event_release, map_and_consume_input]
    have hcl : (scenario_moved J S R priority cb).clear.current_mappedinput =
        { actions := ∅, states := ∅, ranges := fun _ => none } := by
      simp [mapper.clear, hmove]
    have hactc : (scenario_moved J S R priority cb).clear.active
        = [scenario_context J S R] := rfl
    have hma : (scenario_moved J S R priority cb).clear.map_action 1 = some J := by
      simp only [mapper.map_action, hactc]; rfl
    have hms : (scenario_moved J S R priority cb).clear.map_state 1 = none := by
      simp only [mapper.map_state, hactc]; rfl
    rw [hma, hms, hcl]
    simp
  refine ⟨by rw [hpress], by rw [hmove], by rw [hmove], fun q => by rw [hmove], ?_,
    by rw [hrel], by rw [hrel], fun q => by rw [hrel]⟩
  have hcbs : (scenario_moved J S R priority cb).callbacks = [(priority, cb)] := rfl
  simp [mapper.dispatch_callbacks, hcbs, dispatch_loop]

/-! ## range_converter: registration outcome -/

/-- C18, as the code has it: `add_converter` returns no value; the outcome of a registration
shows in the converter only: with `in.lo <= in.hi` and `out.lo <= out.hi` the entry of the
range becomes the new pair of domains, otherwise the converter is unchanged, and the
entries of the other ranges are unchanged either way. -/
theorem C18_registration_outcome (rc : range_converter) (r : range) (i o : vec2) :
    (i.x ≤ i.y ∧ o.x ≤ o.y → (rc.add_converter r i o).conversionmap r = some ⟨i, o⟩) ∧
    (¬ (i.x ≤ i.y ∧ o.x ≤ o.y) → rc.add_converter r i o = rc) ∧
    (∀ q, q ≠ r → (rc.add_converter r i o).conversionmap q = rc.conversionmap q) := by
  refine ⟨fun h => add_converter_accepts rc r i o h.1 h.2, fun h => ?_,
    fun q hq => add_converter_other rc r q i o hq⟩
  have hrej : i.y < i.x ∨ o.y < o.x := by
    by_cases hi : i.x ≤ i.y
    · exact Or.inr (not_le.mp (fun ho => h ⟨hi, ho⟩))
    · exact Or.inl (not_le.mp hi)
  simp [range_converter.add_converter, hrej]

/-- C18 at an accepted and at a rejected registration on an empty converter. -/
theorem C18_registration_outcome_witness :
    (range_converter.empty.add_converter range.RANGE_ONE ⟨0, 100⟩ ⟨0, 1⟩).conversionmap
        range.RANGE_ONE = some ⟨⟨0, 100⟩, ⟨0, 1⟩⟩ ∧
    range_converter.empty.add_converter range.RANGE_ONE ⟨10, 0⟩ ⟨0, 1⟩
      = range_converter.empty :=
  ⟨(C18_registration_outcome range_converter.empty range.RANGE_ONE ⟨0, 100⟩ ⟨0, 1⟩).1
      ⟨by norm_num, by norm_num⟩,
    (C18_registration_outcome range_converter.empty range.RANGE_ONE ⟨10, 0⟩ ⟨0, 1⟩).2.1
      (fun h => absurd h.1 (by norm_num))⟩

/-- C18 as stated fails: the accepted registration of `[0,100] → [0,1]` and the rejected one
of `[10,0] → [0,1]` return the same value, so no reading of the returned value is true
exactly for the accepted registrations. -/
theorem C18_counterexample :
    range_converter.empty.add_converter_returns range.RANGE_ONE ⟨0, 100⟩ ⟨0, 1⟩
      = range_converter.empty.add_converter_returns range.RANGE_ONE ⟨10, 0⟩ ⟨0, 1⟩ ∧
    (range_converter.empty.add_converter range.RANGE_ONE ⟨0, 100⟩ ⟨0, 1⟩).conversionmap
        range.RANGE_ONE = some ⟨⟨0, 100⟩, ⟨0, 1⟩⟩ ∧
    (range_converter.empty.add_converter range.RANGE_ONE ⟨10, 0⟩ ⟨0, 1⟩).conversionmap
        range.RANGE_ONE = none ∧
    ¬ ∃ ok : Unit → Bool, ∀ (rc : range_converter) (r : range) (i o : vec2),
      (ok (rc.add_converter_returns r i o) = true ↔ (i.x ≤ i.y ∧ o.x ≤ o.y)) := by
  refine ⟨rfl, add_converter_accepts _ _ _ _ (by norm_num) (by norm_num), ?_, ?_⟩
  · have hrej : range_converter.empty.add_converter range.RANGE_ONE ⟨10, 0⟩ ⟨0, 1⟩
        = range_converter.empty := by
      have h : ((0 : ℚ) < 10 ∨ (1 : ℚ) < 0) := Or.inl (by norm_num)
      simp [range_converter.add_converter, h]
    rw [hrej]
    rfl
  · rintro ⟨ok, hok⟩
    have hacc := (hok range_converter.empty range.RANGE_ONE ⟨0, 100⟩ ⟨0, 1⟩).mpr
      ⟨by norm_num, by norm_num⟩
    have hrej := (hok range_converter.empty range.RANGE_ONE ⟨10, 0⟩ ⟨0, 1⟩).mp hacc
    exact absurd hrej.1 (by norm_num)

/-! ## binary32: lemmas -/

/-- Zero is a binary32 value. -/
theorem exact32_zero : exact32 0 := by simp [exact32, round32]

/-- A zero-width input domain gives `0 / 0` in binary32 as well: the conversion returns
NaN. -/
theorem convert32_degenerate (c : converter) (v : ℚ) (h : c.in_.y = c.in_.x) :
    c.convert32 v = f32.nan := by
  have hc : clamp v c.in_.x c.in_.x = c.in_.x := by
    unfold clamp
    exact min_eq_right (le_max_right v c.in_.x)
  have hz : round32 0 = f32.fin 0 := exact32_zero
  simp only [converter.convert32, mix32, f32.sub, h, hc, sub_self, hz, f32.div, if_true,
    f32.mul, f32.add]

end input
